import Mathlib

/-!
Verification of the WiFivedra daisy-chain protocol core.

Shallow embedding of the chain communication engine of the repository:
the packet codec and byte-at-a-time link parser of
`src/common/serial_protocol.h` and `src/common/protocol_defs.h`, the
store-and-forward router, the auto-discovery address assignment of
`src/subordinate/subordinate.ino`, the controller's round-robin poll
scheduler of `src/controller/controller.ino`, and the subordinate's
deduplication cache. Machine integers are modelled as `Nat` with explicit
`% 256` where byte width matters.
-/

namespace WiFivedra

/-! ### Constants (`src/common/protocol_defs.h`) -/

def PROTOCOL_VERSION : Nat := 1
def MAX_PACKET_SIZE : Nat := 512
def MAX_PAYLOAD_SIZE : Nat := MAX_PACKET_SIZE - 10
def PACKET_START_MARKER : Nat := 0xAA
def PACKET_END_MARKER : Nat := 0x55
def MAX_SUBORDINATES : Nat := 52
def CONTROLLER_ADDRESS : Nat := 0x00
def UNASSIGNED_ADDRESS : Nat := 0xFE
def BROADCAST_ADDRESS : Nat := 0xFF

def CMD_PING : Nat := 0x01
def CMD_ASSIGN_ADDRESS : Nat := 0x02
def CMD_GPS_UPDATE : Nat := 0x03
def CMD_GET_SCAN_RESULTS : Nat := 0x15
def CMD_CLEAR_RESULTS : Nat := 0x16

def RESP_ACK : Nat := 0x01
def RESP_ADDRESS_ASSIGNED : Nat := 0x03
def RESP_SCAN_RESULT : Nat := 0x20

def PROTO_ERR_NONE : Nat := 0x00
def PROTO_ERR_BUFFER_FULL : Nat := 0x07

/-! ### Packet structures (`src/common/protocol_defs.h`, `struct Packet`) -/

/-- Wire header: `startMarker, version, destAddr, srcAddr, type, length (u16), seqNum`. -/
structure PacketHeader where
  startMarker : Nat
  version : Nat
  destAddr : Nat
  srcAddr : Nat
  type : Nat
  length : Nat
  seqNum : Nat
deriving DecidableEq

structure PacketFooter where
  checksum : Nat
  endMarker : Nat
deriving DecidableEq

structure Packet where
  header : PacketHeader
  payload : List Nat
  footer : PacketFooter
deriving DecidableEq

/-- `Packet::calculateChecksum`: running XOR of version, destAddr, srcAddr,
type, `(length >> 8) & 0xFF`, `length & 0xFF`, seqNum, then the first
`header.length` payload bytes. -/
def calculateChecksum (p : Packet) : Nat :=
  (p.payload.take p.header.length).foldl (fun cs b => cs ^^^ b)
    (0 ^^^ p.header.version ^^^ p.header.destAddr ^^^ p.header.srcAddr ^^^ p.header.type
       ^^^ (p.header.length / 256 % 256) ^^^ (p.header.length % 256) ^^^ p.header.seqNum)

/-- `Packet::verifyChecksum`. -/
def verifyChecksum (p : Packet) : Bool :=
  p.footer.checksum == calculateChecksum p

/-! ### Router (`SerialProtocol::processSerialInput` delivery test and
`SerialProtocol::forwardPacket`) -/

/-- The local-delivery test applied to every checksum-valid frame:
`destAddr == myAddress || destAddr == 0xFF ||
 (destAddr == UNASSIGNED_ADDRESS && myAddress == UNASSIGNED_ADDRESS)`. -/
def deliversLocally (myAddress : Nat) (p : Packet) : Bool :=
  p.header.destAddr == myAddress || p.header.destAddr == BROADCAST_ADDRESS ||
    (p.header.destAddr == UNASSIGNED_ADDRESS && myAddress == UNASSIGNED_ADDRESS)

inductive Link where
  | upstream
  | downstream
deriving DecidableEq

/-- Direction chosen by `forwardPacket`: destinations below the own address go
upstream (toward the controller), everything else goes downstream. -/
def forwardLink (myAddress : Nat) (p : Packet) : Link :=
  if p.header.destAddr < myAddress then Link.upstream else Link.downstream

/-- Routing outcome of `processSerialInput` for a validated frame at a node
holding both links: either the frame is returned to the local command handler
(first component `true`, nothing forwarded), or it is handed unmodified to
`forwardPacket` on the link chosen by `forwardLink`. -/
def routePacket (myAddress : Nat) (p : Packet) : Bool × Option (Link × Packet) :=
  if deliversLocally myAddress p then (true, none)
  else (false, some (forwardLink myAddress p, p))

/-- `SerialProtocol::sendPacket`: builds the frame the firmware transmits
(fixed markers, protocol version 1, length taken from the payload, checksum
computed over header fields and payload). -/
def mkPacket (myAddress destAddr type : Nat) (payload : List Nat) (seqNum : Nat) : Packet :=
  let header : PacketHeader :=
    { startMarker := PACKET_START_MARKER, version := PROTOCOL_VERSION,
      destAddr := destAddr, srcAddr := myAddress, type := type,
      length := payload.length, seqNum := seqNum }
  let body : Packet := { header := header, payload := payload, footer := { checksum := 0, endMarker := PACKET_END_MARKER } }
  { body with footer := { checksum := calculateChecksum body, endMarker := PACKET_END_MARKER } }

/-- The controller's periodic GPS broadcast (`broadcastGPS` in
`controller.ino`): a `CMD_GPS_UPDATE` frame to the broadcast address. The
GPS payload bytes are irrelevant to routing; a 24-byte all-zero snapshot is
used here. -/
def gpsBroadcastFrame : Packet :=
  mkPacket CONTROLLER_ADDRESS BROADCAST_ADDRESS CMD_GPS_UPDATE (List.replicate 24 0) 0

/-! ### Claim C2 — router totality and broadcast handling -/

/-- Claim C2. A validated frame is delivered locally iff its destination is
the own address or the broadcast address, and a frame that is neither is
forwarded exactly once, unmodified, upstream when `destAddr < myAddress` and
downstream otherwise. However, the claim's broadcast clause fails: the code
never forwards a broadcast frame (`forwardPacket` is reached only in the
non-local branch), so the controller's GPS broadcast is swallowed by the
first node — here evaluated at node address 1, while node 2 would equally be
a local recipient, exhibiting the divergence. -/
theorem router_delivery_and_forwarding :
    (∀ (a : Nat) (p : Packet),
      ((routePacket a p).1 = true ↔ (p.header.destAddr = a ∨ p.header.destAddr = BROADCAST_ADDRESS))) ∧
    (∀ (a : Nat) (p : Packet), p.header.destAddr ≠ a → p.header.destAddr ≠ BROADCAST_ADDRESS →
      routePacket a p = (false, some (forwardLink a p, p))) ∧
    (routePacket 1 gpsBroadcastFrame = (true, none) ∧
     deliversLocally 2 gpsBroadcastFrame = true) := by
  have key : ∀ (a : Nat) (p : Packet),
      deliversLocally a p = true ↔ (p.header.destAddr = a ∨ p.header.destAddr = BROADCAST_ADDRESS) := by
    intro a p
    simp only [deliversLocally, BROADCAST_ADDRESS, UNASSIGNED_ADDRESS, Bool.or_eq_true,
      Bool.and_eq_true, beq_iff_eq]
    omega
  have fst_eq : ∀ (a : Nat) (p : Packet), (routePacket a p).1 = deliversLocally a p := by
    intro a p
    by_cases h : deliversLocally a p = true
    · simp [routePacket, h]
    · simp only [Bool.not_eq_true] at h
      simp [routePacket, h]
  refine ⟨?_, ?_, by decide⟩
  · intro a p
    rw [fst_eq, key]
  · intro a p h1 h2
    have hloc : deliversLocally a p = false := by
      rw [← Bool.not_eq_true, key]
      tauto
    simp [routePacket, hloc]

/-- Witness for C2 at a concrete unicast frame: destination 2 at node 1 is
forwarded downstream unchanged. -/
theorem router_delivery_and_forwarding_witness :
    routePacket 1 (mkPacket 0 2 CMD_PING [] 0) =
      (false, some (forwardLink 1 (mkPacket 0 2 CMD_PING [] 0), mkPacket 0 2 CMD_PING [] 0)) :=
  router_delivery_and_forwarding.2.1 1 (mkPacket 0 2 CMD_PING [] 0) (by decide) (by decide)

/-! ### Claim C9 — the reserved UNASSIGNED sentinel destination -/

/-- Claim C9. A validated frame addressed to the UNASSIGNED sentinel (0xFE)
is delivered locally iff the receiving device itself still holds the
sentinel address; a device with any real (smaller) address forwards it
downstream, because the sentinel compares greater than every assigned
address. -/
theorem unassigned_sentinel_delivery :
    ∀ (a : Nat) (p : Packet), p.header.destAddr = UNASSIGNED_ADDRESS →
      (((routePacket a p).1 = true ↔ a = UNASSIGNED_ADDRESS) ∧
       (a < UNASSIGNED_ADDRESS → routePacket a p = (false, some (Link.downstream, p)))) := by
  intro a p hd
  simp only [UNASSIGNED_ADDRESS] at hd ⊢
  have hdel : deliversLocally a p = true ↔ a = 254 := by
    simp only [deliversLocally, hd, UNASSIGNED_ADDRESS, BROADCAST_ADDRESS, Bool.or_eq_true,
      Bool.and_eq_true, beq_iff_eq]
    omega
  constructor
  · by_cases h : deliversLocally a p = true
    · simp only [routePacket, h, if_true]
      simpa using hdel.mp h
    · simp only [Bool.not_eq_true] at h
      simp only [routePacket, h, Bool.false_eq_true, if_false]
      constructor
      · intro hcon; exact absurd hcon (by simp)
      · intro ha
        exact absurd (hdel.mpr ha) (by simp [h])
  · intro hlt
    have hloc : deliversLocally a p = false := by
      rw [← Bool.not_eq_true, hdel]
      omega
    have hfl : forwardLink a p = Link.downstream := by
      simp only [forwardLink, hd]
      rw [if_neg (by omega)]
    simp [routePacket, hloc, hfl]

/-- Witness for C9: a discovery `CMD_ASSIGN_ADDRESS` frame for the sentinel
destination, arriving at a node that already adopted address 5, is forwarded
downstream; at a still-unassigned node it is delivered locally. -/
theorem unassigned_sentinel_delivery_witness :
    ((routePacket 5 (mkPacket 0 UNASSIGNED_ADDRESS CMD_ASSIGN_ADDRESS [1, 0] 0)).1 = true ↔
      (5 : Nat) = UNASSIGNED_ADDRESS) ∧
    ((5 : Nat) < UNASSIGNED_ADDRESS →
      routePacket 5 (mkPacket 0 UNASSIGNED_ADDRESS CMD_ASSIGN_ADDRESS [1, 0] 0) =
        (false, some (Link.downstream, mkPacket 0 UNASSIGNED_ADDRESS CMD_ASSIGN_ADDRESS [1, 0] 0))) :=
  unassigned_sentinel_delivery 5 (mkPacket 0 UNASSIGNED_ADDRESS CMD_ASSIGN_ADDRESS [1, 0] 0) (by decide)

/-! ### Link state machine (`SerialProtocol::processSerialInput`, framing part)

The byte-at-a-time receive loop: outside a frame it hunts for the start
marker; inside a frame it accumulates bytes, reads the little-endian length
field once the fixed header is in, and on reaching the expected total size
checks the end marker and the checksum, emitting the validated frame (which
is then routed by `routePacket`). Any mismatch silently resets to hunting. -/

def byteAt (l : List Nat) (i : Nat) : Nat := l.getD i 0

/-- Payload length read back from the receive buffer: bytes 5 (low) and
6 (high) of the packed little-endian `uint16_t length`. -/
def wireLength (buf : List Nat) : Nat := byteAt buf 5 + 256 * byteAt buf 6

/-- `sizeof(PacketHeader) + header->length + sizeof(PacketFooter)`. -/
def expectedSize (buf : List Nat) : Nat := 8 + wireLength buf + 2

structure RxState where
  receiving : Bool
  buf : List Nat
deriving DecidableEq

def initRx : RxState := { receiving := false, buf := [] }

/-- Mid-frame receive state: hunting finished, `buf` accumulated so far. -/
def rxMid (buf : List Nat) : RxState := { receiving := true, buf := buf }

/-- End-of-frame handling: check the end marker, copy the packet out of the
buffer, verify the checksum. `none` means the frame was silently discarded. -/
def parseComplete (buf : List Nat) : Option Packet :=
  if byteAt buf (expectedSize buf - 1) = PACKET_END_MARKER then
    let len := wireLength buf
    let pkt : Packet :=
      { header := { startMarker := byteAt buf 0, version := byteAt buf 1, destAddr := byteAt buf 2,
                    srcAddr := byteAt buf 3, type := byteAt buf 4, length := len,
                    seqNum := byteAt buf 7 },
        payload := (buf.drop 8).take len,
        footer := { checksum := byteAt buf (8 + len), endMarker := byteAt buf (8 + len + 1) } }
    if verifyChecksum pkt then some pkt else none
  else none

/-- One iteration of the receive loop for one incoming byte. -/
def feedByte (st : RxState) (b : Nat) : RxState × Option Packet :=
  if st.receiving = false then
    if b = PACKET_START_MARKER then ({ receiving := true, buf := [b] }, none) else (st, none)
  else if st.buf.length < MAX_PACKET_SIZE then
    let buf := st.buf ++ [b]
    if 8 ≤ buf.length ∧ expectedSize buf ≤ buf.length then (initRx, parseComplete buf)
    else ({ receiving := true, buf := buf }, none)
  else (initRx, none)

/-- Drain a byte sequence through the receive loop, collecting every
validated frame in order. -/
def runBytes : RxState → List Nat → RxState × List Packet
  | st, [] => (st, [])
  | st, b :: bs =>
    let fr := feedByte st b
    let rest := runBytes fr.1 bs
    (rest.1, fr.2.toList ++ rest.2)

def decodeBytes (bytes : List Nat) : List Packet := (runBytes initRx bytes).2

/-- Byte sequence written by `sendPacket`/`forwardPacket`: the packed header
(8 bytes, length little-endian), the first `header.length` payload bytes, and
the packed footer. -/
def encodePacket (p : Packet) : List Nat :=
  [p.header.startMarker, p.header.version, p.header.destAddr, p.header.srcAddr, p.header.type,
   p.header.length % 256, p.header.length / 256 % 256, p.header.seqNum]
  ++ p.payload.take p.header.length
  ++ [p.footer.checksum, p.footer.endMarker]

/-- A frame with correct markers, consistent length within bounds, and a
correct checksum — exactly what `sendPacket` emits. -/
def ValidFrame (p : Packet) : Prop :=
  p.header.startMarker = PACKET_START_MARKER ∧
  p.footer.endMarker = PACKET_END_MARKER ∧
  p.payload.length = p.header.length ∧
  p.header.length ≤ MAX_PAYLOAD_SIZE ∧
  p.footer.checksum = calculateChecksum p

theorem byteAt_append_left {l1 : List Nat} (l2 : List Nat) {i : Nat} (h : i < l1.length) :
    byteAt (l1 ++ l2) i = byteAt l1 i :=
  List.getD_append _ _ _ _ h

theorem byteAt_append_right {l1 : List Nat} (l2 : List Nat) {i : Nat} (h : l1.length ≤ i) :
    byteAt (l1 ++ l2) i = byteAt l2 (i - l1.length) :=
  List.getD_append_right _ _ _ _ h

theorem expectedSize_append {buf : List Nat} (l : List Nat) (h : 8 ≤ buf.length) :
    expectedSize (buf ++ l) = expectedSize buf := by
  unfold expectedSize wireLength
  rw [byteAt_append_left l (by omega), byteAt_append_left l (by omega)]

theorem runBytes_nil (st : RxState) : runBytes st [] = (st, []) := rfl

theorem runBytes_cons (st : RxState) (b : Nat) (bs : List Nat) :
    runBytes st (b :: bs) =
      ((runBytes (feedByte st b).1 bs).1,
       (feedByte st b).2.toList ++ (runBytes (feedByte st b).1 bs).2) := rfl

theorem runBytes_append (st : RxState) (l1 l2 : List Nat) :
    runBytes st (l1 ++ l2) =
      ((runBytes (runBytes st l1).1 l2).1,
       (runBytes st l1).2 ++ (runBytes (runBytes st l1).1 l2).2) := by
  induction l1 generalizing st with
  | nil => simp [runBytes_nil]
  | cons b bs ih =>
    simp only [List.cons_append, runBytes_cons, ih, List.append_assoc]

theorem runBytes_append_run {st st1 st2 : RxState} {l1 l2 : List Nat} {o1 o2 : List Packet}
    (h1 : runBytes st l1 = (st1, o1)) (h2 : runBytes st1 l2 = (st2, o2)) :
    runBytes st (l1 ++ l2) = (st2, o1 ++ o2) := by
  rw [runBytes_append, h1]
  simp [h2]

theorem feedByte_continue {buf : List Nat} {b : Nat}
    (hlt : buf.length < MAX_PACKET_SIZE)
    (h : ¬(8 ≤ (buf ++ [b]).length ∧ expectedSize (buf ++ [b]) ≤ (buf ++ [b]).length)) :
    feedByte (rxMid buf) b = (rxMid (buf ++ [b]), none) := by
  simp only [feedByte, rxMid]
  rw [if_neg (by simp), if_pos hlt, if_neg h]

theorem feedByte_complete {buf : List Nat} {b : Nat}
    (hlt : buf.length < MAX_PACKET_SIZE)
    (h : 8 ≤ (buf ++ [b]).length ∧ expectedSize (buf ++ [b]) ≤ (buf ++ [b]).length) :
    feedByte (rxMid buf) b = (initRx, parseComplete (buf ++ [b])) := by
  simp only [feedByte, rxMid]
  rw [if_neg (by simp), if_pos hlt, if_pos h]

theorem runBytes_small (bs : List Nat) : ∀ buf : List Nat,
    buf.length + bs.length < 8 →
    runBytes (rxMid buf) bs = (rxMid (buf ++ bs), []) := by
  induction bs with
  | nil => intro buf _; simp [runBytes_nil]
  | cons b bs ih =>
    intro buf h
    have hlen : (buf ++ [b]).length = buf.length + 1 := by simp
    have hfeed := @feedByte_continue buf b
      (by simp at h ⊢; unfold MAX_PACKET_SIZE; omega)
      (by rw [hlen]; simp at h; omega)
    rw [runBytes_cons, hfeed]
    simp only [Option.toList_none, List.nil_append]
    rw [ih (buf ++ [b]) (by simp at h ⊢; omega)]
    simp

theorem runBytes_fill (bs : List Nat) : ∀ buf : List Nat,
    8 ≤ buf.length →
    buf.length + bs.length < expectedSize buf →
    expectedSize buf ≤ MAX_PACKET_SIZE →
    runBytes (rxMid buf) bs = (rxMid (buf ++ bs), []) := by
  induction bs with
  | nil => intro buf _ _ _; simp [runBytes_nil]
  | cons b bs ih =>
    intro buf h8 hexp hmax
    have heq : expectedSize (buf ++ [b]) = expectedSize buf := expectedSize_append [b] h8
    have hlen : (buf ++ [b]).length = buf.length + 1 := by simp
    have hfeed := @feedByte_continue buf b
      (by simp only [List.length_cons] at hexp; omega)
      (by rw [heq, hlen]; simp only [List.length_cons] at hexp; omega)
    rw [runBytes_cons, hfeed]
    simp only [Option.toList_none, List.nil_append]
    rw [ih (buf ++ [b])
      (by rw [hlen]; omega)
      (by rw [heq, hlen]; simp only [List.length_cons] at hexp; omega)
      (by rw [heq]; exact hmax)]
    simp

/-! ### Claim C5 — decode ∘ encode round-trip -/

/-- Claim C5. For every valid frame (payload length within bounds, correct
markers and checksum), feeding the exact byte sequence produced by the packet
encoder into the byte-at-a-time link parser reconstructs precisely that frame:
same header fields, payload bytes and footer, and nothing else is emitted. -/
theorem decode_encode_roundtrip (p : Packet) (h : ValidFrame p) :
    decodeBytes (encodePacket p) = [p] := by
  obtain ⟨⟨sm, v, d, s, t, len, q⟩, pay, cs, em⟩ := p
  obtain ⟨hstart, hend, hlen, hbound, hcs⟩ := h
  simp only at hstart hend hlen hbound hcs
  subst hstart
  subst hend
  have hbound' : len ≤ 502 := by
    simpa [MAX_PAYLOAD_SIZE, MAX_PACKET_SIZE] using hbound
  have hpay : pay.take len = pay := by
    rw [← hlen]
    exact List.take_length pay
  have hw8 : wireLength [PACKET_START_MARKER, v, d, s, t, len % 256, len / 256 % 256, q] = len := by
    show len % 256 + 256 * (len / 256 % 256) = len
    omega
  have hexp8 : expectedSize [PACKET_START_MARKER, v, d, s, t, len % 256, len / 256 % 256, q]
      = 10 + len := by
    unfold expectedSize
    rw [hw8]
    omega
  have stage1 : runBytes initRx [PACKET_START_MARKER] =
      (rxMid [PACKET_START_MARKER], []) := by
    rw [runBytes_cons]
    simp [feedByte, initRx, rxMid, runBytes_nil]
  have stage2 : runBytes (rxMid [PACKET_START_MARKER])
      [v, d, s, t, len % 256, len / 256 % 256] =
      (rxMid [PACKET_START_MARKER, v, d, s, t, len % 256, len / 256 % 256], []) := by
    have := runBytes_small [v, d, s, t, len % 256, len / 256 % 256] [PACKET_START_MARKER] (by simp)
    simpa using this
  have stage3 : runBytes (rxMid [PACKET_START_MARKER, v, d, s, t, len % 256, len / 256 % 256]) [q] =
      (rxMid [PACKET_START_MARKER, v, d, s, t, len % 256, len / 256 % 256, q], []) := by
    rw [runBytes_cons]
    rw [feedByte_continue (by simp [MAX_PACKET_SIZE])
      (by
        intro hcon
        have hc2 := hcon.2
        have he : expectedSize ([PACKET_START_MARKER, v, d, s, t, len % 256, len / 256 % 256] ++ [q])
            = 10 + len := hexp8
        rw [he] at hc2
        simp at hc2
        omega)]
    simp [runBytes_nil]
  have stage4 : runBytes (rxMid [PACKET_START_MARKER, v, d, s, t, len % 256, len / 256 % 256, q])
      (pay ++ [cs]) =
      (rxMid ([PACKET_START_MARKER, v, d, s, t, len % 256, len / 256 % 256, q] ++ (pay ++ [cs])),
       []) := by
    apply runBytes_fill
    · simp
    · rw [hexp8]
      simp [hlen]
      omega
    · rw [hexp8]
      unfold MAX_PACKET_SIZE
      omega
  have hb9len : ([PACKET_START_MARKER, v, d, s, t, len % 256, len / 256 % 256, q]
      ++ (pay ++ [cs])).length = 9 + len := by
    simp [hlen]
    omega
  have hbuf10 : ([PACKET_START_MARKER, v, d, s, t, len % 256, len / 256 % 256, q] ++ (pay ++ [cs]))
      ++ [PACKET_END_MARKER] =
      [PACKET_START_MARKER, v, d, s, t, len % 256, len / 256 % 256, q]
      ++ (pay ++ [cs, PACKET_END_MARKER]) := by
    simp
  have hexp10 : expectedSize ([PACKET_START_MARKER, v, d, s, t, len % 256, len / 256 % 256, q]
      ++ (pay ++ [cs, PACKET_END_MARKER])) = 10 + len := by
    rw [expectedSize_append _ (by simp), hexp8]
  have hwire10 : wireLength ([PACKET_START_MARKER, v, d, s, t, len % 256, len / 256 % 256, q]
      ++ (pay ++ [cs, PACKET_END_MARKER])) = len := by
    unfold wireLength
    rw [byteAt_append_left _ (by simp), byteAt_append_left _ (by simp)]
    exact hw8
  have hb10len : ([PACKET_START_MARKER, v, d, s, t, len % 256, len / 256 % 256, q]
      ++ (pay ++ [cs, PACKET_END_MARKER])).length = 10 + len := by
    simp [hlen]
    omega
  have hructail : ∀ i : Nat, 8 ≤ i →
      byteAt ([PACKET_START_MARKER, v, d, s, t, len % 256, len / 256 % 256, q]
        ++ (pay ++ [cs, PACKET_END_MARKER])) i = byteAt (pay ++ [cs, PACKET_END_MARKER]) (i - 8) := by
    intro i hi
    exact byteAt_append_right _ (by simpa using hi)
  have hem : byteAt ([PACKET_START_MARKER, v, d, s, t, len % 256, len / 256 % 256, q]
      ++ (pay ++ [cs, PACKET_END_MARKER])) (10 + len - 1) = PACKET_END_MARKER := by
    rw [show 10 + len - 1 = 9 + len from by omega, hructail (9 + len) (by omega),
      show 9 + len - 8 = 1 + len from by omega,
      byteAt_append_right _ (by omega)]
    rw [show 1 + len - pay.length = 1 from by omega]
    rfl
  have hcsb : byteAt ([PACKET_START_MARKER, v, d, s, t, len % 256, len / 256 % 256, q]
      ++ (pay ++ [cs, PACKET_END_MARKER])) (8 + len) = cs := by
    rw [hructail (8 + len) (by omega), show 8 + len - 8 = len from by omega,
      byteAt_append_right _ (by omega)]
    rw [show len - pay.length = 0 from by omega]
    rfl
  have hemb : byteAt ([PACKET_START_MARKER, v, d, s, t, len % 256, len / 256 % 256, q]
      ++ (pay ++ [cs, PACKET_END_MARKER])) (8 + len + 1) = PACKET_END_MARKER := by
    rw [hructail (8 + len + 1) (by omega), show 8 + len + 1 - 8 = len + 1 from by omega,
      byteAt_append_right _ (by omega)]
    rw [show len + 1 - pay.length = 1 from by omega]
    rfl
  have hdrop : (([PACKET_START_MARKER, v, d, s, t, len % 256, len / 256 % 256, q]
      ++ (pay ++ [cs, PACKET_END_MARKER])).drop 8).take len = pay := by
    have h1 : ([PACKET_START_MARKER, v, d, s, t, len % 256, len / 256 % 256, q]
        ++ (pay ++ [cs, PACKET_END_MARKER])).drop 8 = pay ++ [cs, PACKET_END_MARKER] := by
      simp
    rw [h1, ← hlen]
    simp
  have hparse : parseComplete ([PACKET_START_MARKER, v, d, s, t, len % 256, len / 256 % 256, q]
      ++ (pay ++ [cs, PACKET_END_MARKER])) =
      some ⟨⟨PACKET_START_MARKER, v, d, s, t, len, q⟩, pay, cs, PACKET_END_MARKER⟩ := by
    unfold parseComplete
    rw [hexp10, hwire10, hem, if_pos rfl]
    have hb0 : byteAt ([PACKET_START_MARKER, v, d, s, t, len % 256, len / 256 % 256, q]
        ++ (pay ++ [cs, PACKET_END_MARKER])) 0 = PACKET_START_MARKER := by
      rw [byteAt_append_left _ (by simp)]
      rfl
    have hb1 : byteAt ([PACKET_START_MARKER, v, d, s, t, len % 256, len / 256 % 256, q]
        ++ (pay ++ [cs, PACKET_END_MARKER])) 1 = v := by
      rw [byteAt_append_left _ (by simp)]
      rfl
    have hb2 : byteAt ([PACKET_START_MARKER, v, d, s, t, len % 256, len / 256 % 256, q]
        ++ (pay ++ [cs, PACKET_END_MARKER])) 2 = d := by
      rw [byteAt_append_left _ (by simp)]
      rfl
    have hb3 : byteAt ([PACKET_START_MARKER, v, d, s, t, len % 256, len / 256 % 256, q]
        ++ (pay ++ [cs, PACKET_END_MARKER])) 3 = s := by
      rw [byteAt_append_left _ (by simp)]
      rfl
    have hb4 : byteAt ([PACKET_START_MARKER, v, d, s, t, len % 256, len / 256 % 256, q]
        ++ (pay ++ [cs, PACKET_END_MARKER])) 4 = t := by
      rw [byteAt_append_left _ (by simp)]
      rfl
    have hb7 : byteAt ([PACKET_START_MARKER, v, d, s, t, len % 256, len / 256 % 256, q]
        ++ (pay ++ [cs, PACKET_END_MARKER])) 7 = q := by
      rw [byteAt_append_left _ (by simp)]
      rfl
    simp only [hcsb, hemb, hdrop, hb0, hb1, hb2, hb3, hb4, hb7]
    rw [if_pos (by simp [verifyChecksum, ← hcs])]
  have stage5 : runBytes
      (rxMid ([PACKET_START_MARKER, v, d, s, t, len % 256, len / 256 % 256, q] ++ (pay ++ [cs])))
      [PACKET_END_MARKER] =
      (initRx, [⟨⟨PACKET_START_MARKER, v, d, s, t, len, q⟩, pay, cs, PACKET_END_MARKER⟩]) := by
    rw [runBytes_cons,
      feedByte_complete (by rw [hb9len]; unfold MAX_PACKET_SIZE; omega)
        (by rw [hbuf10, hexp10, hb10len]; omega),
      hbuf10, hparse]
    simp [runBytes_nil]
  have hshape : encodePacket ⟨⟨PACKET_START_MARKER, v, d, s, t, len, q⟩, pay, cs, PACKET_END_MARKER⟩
      = [PACKET_START_MARKER] ++ ([v, d, s, t, len % 256, len / 256 % 256]
        ++ ([q] ++ ((pay ++ [cs]) ++ [PACKET_END_MARKER]))) := by
    simp [encodePacket, hpay]
  show (runBytes initRx _).2 = _
  rw [hshape,
    runBytes_append_run stage1 (runBytes_append_run stage2
      (runBytes_append_run stage3 (runBytes_append_run stage4 stage5)))]
  rfl

/-- Witness for C5: a concrete `CMD_SET_CHANNEL`-style frame with a one-byte
payload survives the round trip. -/
theorem decode_encode_roundtrip_witness :
    ValidFrame (mkPacket CONTROLLER_ADDRESS 2 0x14 [36] 1) ∧
    decodeBytes (encodePacket (mkPacket CONTROLLER_ADDRESS 2 0x14 [36] 1)) =
      [mkPacket CONTROLLER_ADDRESS 2 0x14 [36] 1] :=
  ⟨by constructor <;> decide,
   decode_encode_roundtrip (mkPacket CONTROLLER_ADDRESS 2 0x14 [36] 1)
     (by constructor <;> decide)⟩

/-! ### Claim C6 — checksum error detection -/

theorem xor_left_comm (a b c : Nat) : a ^^^ (b ^^^ c) = b ^^^ (a ^^^ c) := by
  rw [← Nat.xor_assoc, Nat.xor_comm a b, Nat.xor_assoc]

theorem foldl_xor_shift (l : List Nat) (a : Nat) :
    l.foldl (fun cs b => cs ^^^ b) a = a ^^^ l.foldl (fun cs b => cs ^^^ b) 0 := by
  induction l generalizing a with
  | nil => simp
  | cons x xs ih =>
    simp only [List.foldl_cons]
    rw [ih (a ^^^ x), ih (0 ^^^ x)]
    simp [Nat.xor_assoc]

theorem foldl_xor_set (l : List Nat) (i : Nat) (b : Nat) (h : i < l.length) :
    (l.set i b).foldl (fun cs x => cs ^^^ x) 0 =
      (l.foldl (fun cs x => cs ^^^ x) 0) ^^^ (l.getD i 0 ^^^ b) := by
  induction l generalizing i with
  | nil => simp at h
  | cons x xs ih =>
    cases i with
    | zero =>
      simp only [List.set_cons_zero, List.foldl_cons, List.getD_cons_zero]
      rw [foldl_xor_shift xs (0 ^^^ b), foldl_xor_shift xs (0 ^^^ x)]
      simp only [Nat.zero_xor]
      rw [Nat.xor_comm x (xs.foldl (fun cs y => cs ^^^ y) 0), Nat.xor_assoc,
        Nat.xor_cancel_left, Nat.xor_comm]
    | succ j =>
      simp only [List.set_cons_succ, List.foldl_cons, List.getD_cons_succ]
      rw [foldl_xor_shift (xs.set j b) (0 ^^^ x), foldl_xor_shift xs (0 ^^^ x),
        ih j (by simpa using h), Nat.xor_assoc]
      simp [Nat.xor_assoc]

/-- A frame with one payload byte replaced (the corruption pattern of the
single-byte-error test). -/
def corruptPayloadByte (p : Packet) (i b : Nat) : Packet :=
  { p with payload := p.payload.set i b }

/-- Concrete frame for the two-bit-flip evasion: a scan-result-style frame
with payload `[0, 0]`. -/
def evadeFrame : Packet := mkPacket 1 CONTROLLER_ADDRESS RESP_SCAN_RESULT [0, 0] 0

/-- `evadeFrame` with bit 0 of payload byte 0 and bit 0 of payload byte 1
both flipped; the footer (and hence the original checksum) is untouched. -/
def evadeFrameFlipped : Packet := { evadeFrame with payload := [0 ^^^ 1, 0 ^^^ 1] }

/-- Claim C6. The XOR checksum detects any corruption of a single payload
byte: replacing one payload byte of a checksum-valid frame with a different
value always makes verification fail. It is not error-correcting: for the
concrete valid frame `evadeFrame`, flipping one bit in each of two different
payload bytes yields a frame that still passes verification. -/
theorem checksum_single_byte_detect_two_bit_miss :
    (∀ (p : Packet) (i b : Nat),
      p.payload.length = p.header.length →
      verifyChecksum p = true →
      i < p.payload.length →
      b ≠ p.payload.getD i 0 →
      verifyChecksum (corruptPayloadByte p i b) = false) ∧
    (verifyChecksum evadeFrame = true ∧
     verifyChecksum evadeFrameFlipped = true ∧
     evadeFrameFlipped.payload = [evadeFrame.payload.getD 0 0 ^^^ 1, evadeFrame.payload.getD 1 0 ^^^ 1] ∧
     evadeFrameFlipped.header = evadeFrame.header ∧
     evadeFrameFlipped.footer = evadeFrame.footer) := by
  refine ⟨?_, by decide, by decide, by decide, by decide, by decide⟩
  intro p i b hlen hver hi hb
  have htake : p.payload.take p.header.length = p.payload := by
    rw [← hlen]; exact List.take_length p.payload
  have htake' : (p.payload.set i b).take p.header.length = p.payload.set i b := by
    rw [← hlen, ← List.length_set p.payload i b]
    exact List.take_length (p.payload.set i b)
  have hcalc : calculateChecksum (corruptPayloadByte p i b) =
      calculateChecksum p ^^^ (p.payload.getD i 0 ^^^ b) := by
    unfold calculateChecksum corruptPayloadByte
    simp only
    rw [htake, htake']
    rw [foldl_xor_shift (p.payload.set i b), foldl_xor_shift p.payload,
      foldl_xor_set p.payload i b hi, ← Nat.xor_assoc]
  have hne : calculateChecksum (corruptPayloadByte p i b) ≠ calculateChecksum p := by
    rw [hcalc]
    intro hcon
    have h0 : calculateChecksum p ^^^ (p.payload.getD i 0 ^^^ b) =
        calculateChecksum p ^^^ 0 := by
      rw [Nat.xor_zero]; exact hcon
    have := Nat.xor_right_inj.mp h0
    exact hb (Nat.xor_eq_zero.mp this).symm
  have hfc : p.footer.checksum = calculateChecksum p := by
    simpa [verifyChecksum] using hver
  simp [verifyChecksum, corruptPayloadByte, hfc]
  intro hcon
  exact hne (by simpa [corruptPayloadByte] using hcon.symm)

/-- Witness for C6: corrupting payload byte 0 of `evadeFrame` from 0 to 7
fails verification. -/
theorem checksum_single_byte_detect_two_bit_miss_witness :
    verifyChecksum (corruptPayloadByte evadeFrame 0 7) = false :=
  checksum_single_byte_detect_two_bit_miss.1 evadeFrame 0 7 (by decide) (by decide)
    (by decide) (by decide)

/-! ### Deduplication cache (`src/subordinate/subordinate.ino`)

File-scope state of the subordinate: the bounded most-recently-used
`seenNetworks` list (capacity 500), the `newNetworksBuffer` of first
sightings (capacity 100), and the status counters touched by the scan loop.
The float GPS fields of `WiFiScanResult` are carried as opaque raw 32-bit
patterns (`Nat`); the scan loop never computes on them. -/

def MAX_SEEN_NETWORKS : Nat := 500
def MAX_NEW_NETWORKS : Nat := 100

structure SeenNetwork where
  bssid : List Nat
  lastSeen : Nat
  seenCount : Nat
deriving DecidableEq

structure WiFiScanResult where
  bssid : List Nat
  ssid : List Nat
  rssi : Int
  channel : Nat
  band : Nat
  authMode : Nat
  timestamp : Nat
  latitude : Nat
  longitude : Nat
  altitude : Nat
  gpsQuality : Nat
deriving DecidableEq

structure SubordinateState where
  seenNetworks : List SeenNetwork
  newNetworksBuffer : List WiFiScanResult
  resultCount : Nat
  lastError : Nat
  totalNetworksScanned : Nat
  totalNewNetworks : Nat
deriving DecidableEq

/-- `findSeenNetwork`: index of the first entry whose 6-byte key matches
(`memcmp == 0`), `none` for the C code's `-1`. -/
def findSeenNetwork (seen : List SeenNetwork) (bssid : List Nat) : Option Nat :=
  seen.findIdx? (fun e => e.bssid == bssid)

/-- `moveSeenNetworkToTop`: shift entries `0..index-1` down one slot and put
the entry at `index` in front; entries after `index` are untouched. -/
def moveSeenNetworkToTop (seen : List SeenNetwork) (index : Nat) : List SeenNetwork :=
  if index = 0 then seen
  else
    match seen[index]? with
    | some e => e :: seen.eraseIdx index
    | none => seen

/-- `addToSeenNetworks`: insert a fresh entry (count 1) in front; when the
list already holds `MAX_SEEN_NETWORKS` entries the bottom entry is shifted
out. -/
def addToSeenNetworks (seen : List SeenNetwork) (bssid : List Nat) (timestamp : Nat) :
    List SeenNetwork :=
  { bssid := bssid, lastSeen := timestamp, seenCount := 1 } ::
    (if seen.length < MAX_SEEN_NETWORKS then seen else seen.dropLast)

/-- `processNetworkResult`: bump `totalNetworksScanned`; on a repeat key bump
its count and move it to the top, returning `false`; on a first sighting
insert it and bump `totalNewNetworks`, returning `true`. -/
def processNetworkResult (s : SubordinateState) (r : WiFiScanResult) : SubordinateState × Bool :=
  let s1 := { s with totalNetworksScanned := s.totalNetworksScanned + 1 }
  match findSeenNetwork s1.seenNetworks r.bssid with
  | some i =>
    let updated :=
      match s1.seenNetworks[i]? with
      | some e => s1.seenNetworks.set i { e with seenCount := e.seenCount + 1, lastSeen := r.timestamp }
      | none => s1.seenNetworks
    ({ s1 with seenNetworks := moveSeenNetworkToTop updated i }, false)
  | none =>
    ({ s1 with seenNetworks := addToSeenNetworks s1.seenNetworks r.bssid r.timestamp,
               totalNewNetworks := s1.totalNewNetworks + 1 }, true)

/-- The per-observation body of `performScan`: classify via
`processNetworkResult`, then buffer only NEW networks; when the new-networks
buffer is full, drop the observation and set the sticky
`PROTO_ERR_BUFFER_FULL` flag, continuing the loop. -/
def scanStep (s : SubordinateState) (r : WiFiScanResult) : SubordinateState :=
  let pr := processNetworkResult s r
  if pr.2 then
    if pr.1.newNetworksBuffer.length < MAX_NEW_NETWORKS then
      { pr.1 with newNetworksBuffer := pr.1.newNetworksBuffer ++ [r],
                  resultCount := pr.1.newNetworksBuffer.length + 1 }
    else
      { pr.1 with lastError := PROTO_ERR_BUFFER_FULL }
  else pr.1

/-- The `for` loop of `performScan` over one scan's observation list. -/
def processScanResults (s : SubordinateState) (rs : List WiFiScanResult) : SubordinateState :=
  rs.foldl scanStep s

inductive SubOutput where
  | scanResult (r : WiFiScanResult)
  | ack
deriving DecidableEq

/-- `handleCommand` case `CMD_CLEAR_RESULTS`: zero the new-networks count and
the reported result count (the seen list is deliberately kept), ACK. -/
def cmdClearResults (s : SubordinateState) : SubordinateState × SubOutput :=
  ({ s with newNetworksBuffer := [], resultCount := 0 }, SubOutput.ack)

/-- `sendBufferedResults` (the `CMD_GET_SCAN_RESULTS` handler): stream every
buffered new network, then a terminating ACK; no state is modified. -/
def sendBufferedResults (s : SubordinateState) : SubordinateState × List SubOutput :=
  (s, s.newNetworksBuffer.map SubOutput.scanResult ++ [SubOutput.ack])

theorem findSeenNetwork_none_iff (seen : List SeenNetwork) (k : List Nat) :
    findSeenNetwork seen k = none ↔ ∀ e ∈ seen, ¬ e.bssid = k := by
  simp [findSeenNetwork, List.findIdx?_eq_none_iff]

theorem scanStep_totalScanned (s : SubordinateState) (r : WiFiScanResult) :
    (scanStep s r).totalNetworksScanned = s.totalNetworksScanned + 1 := by
  simp only [scanStep, processNetworkResult]
  cases hf : findSeenNetwork s.seenNetworks r.bssid with
  | none => simp [hf]; split <;> rfl
  | some i => simp [hf]

theorem scanStep_new_with_room (s : SubordinateState) (r : WiFiScanResult)
    (hfind : findSeenNetwork s.seenNetworks r.bssid = none)
    (hroom : s.newNetworksBuffer.length < MAX_NEW_NETWORKS) :
    scanStep s r = { s with
      seenNetworks := addToSeenNetworks s.seenNetworks r.bssid r.timestamp,
      newNetworksBuffer := s.newNetworksBuffer ++ [r],
      resultCount := s.newNetworksBuffer.length + 1,
      totalNetworksScanned := s.totalNetworksScanned + 1,
      totalNewNetworks := s.totalNewNetworks + 1 } := by
  simp [scanStep, processNetworkResult, hfind, hroom]

theorem scanStep_repeat_head (s : SubordinateState) (r : WiFiScanResult)
    (k : List Nat) (tme c : Nat) (tail : List SeenNetwork)
    (hseen : s.seenNetworks = { bssid := k, lastSeen := tme, seenCount := c } :: tail)
    (hk : r.bssid = k) :
    scanStep s r = { s with
      seenNetworks := { bssid := k, lastSeen := r.timestamp, seenCount := c + 1 } :: tail,
      totalNetworksScanned := s.totalNetworksScanned + 1 } := by
  have hfind : findSeenNetwork ({ bssid := k, lastSeen := tme, seenCount := c } :: tail) r.bssid
      = some 0 := by
    rw [hk]
    simp [findSeenNetwork, List.findIdx?_cons]
  simp [scanStep, processNetworkResult, hseen, hfind, moveSeenNetworkToTop]

theorem repeats_aux (k : List Nat) (rs : List WiFiScanResult) :
    ∀ (s : SubordinateState) (tme c : Nat) (tail : List SeenNetwork),
    (∀ r ∈ rs, r.bssid = k) →
    s.seenNetworks = { bssid := k, lastSeen := tme, seenCount := c } :: tail →
    ∃ t2, (processScanResults s rs).seenNetworks =
        { bssid := k, lastSeen := t2, seenCount := c + rs.length } :: tail ∧
      (processScanResults s rs).newNetworksBuffer = s.newNetworksBuffer := by
  induction rs with
  | nil =>
    intro s tme c tail _ hseen
    exact ⟨tme, by simpa [processScanResults] using hseen, rfl⟩
  | cons r rs ih =>
    intro s tme c tail hall hseen
    have hstep := scanStep_repeat_head s r k tme c tail hseen (hall r (by simp))
    have hrec := ih (scanStep s r) r.timestamp (c + 1) tail
      (fun x hx => hall x (by simp [hx]))
      (by rw [hstep])
    obtain ⟨t2, h1, h2⟩ := hrec
    refine ⟨t2, ?_, ?_⟩
    · show (processScanResults (scanStep s r) rs).seenNetworks = _
      rw [h1]
      simp only [List.length_cons]
      congr 2
      omega
    · show (processScanResults (scanStep s r) rs).newNetworksBuffer = _
      rw [h2, hstep]

/-! ### Claim C4 — dedup cache: sighting counts and LRU eviction -/

/-- Claim C4. Processing the same key K (≥ 1) times from a state that does
not contain it, with room in the new-networks buffer, enqueues exactly one
new-network record (the first observation) and leaves a single seen entry for
that key, at the top, with sighting count K. Inserting a fresh key into a
full cache of `MAX_SEEN_NETWORKS` entries evicts exactly the bottom
(least-recently-touched) entry: the result is the new entry in front of every
old entry except the last. -/
theorem dedup_cache_sighting_count_and_eviction :
    (∀ (s : SubordinateState) (k : List Nat) (rs : List WiFiScanResult),
      rs ≠ [] →
      (∀ r ∈ rs, r.bssid = k) →
      findSeenNetwork s.seenNetworks k = none →
      s.newNetworksBuffer.length < MAX_NEW_NETWORKS →
      ∃ t2 tail,
        (processScanResults s rs).seenNetworks =
          { bssid := k, lastSeen := t2, seenCount := rs.length } :: tail ∧
        (∀ e ∈ tail, ¬ e.bssid = k) ∧
        (processScanResults s rs).newNetworksBuffer = s.newNetworksBuffer ++ rs.take 1) ∧
    (∀ (s : SubordinateState) (r : WiFiScanResult),
      findSeenNetwork s.seenNetworks r.bssid = none →
      s.seenNetworks.length = MAX_SEEN_NETWORKS →
      (processNetworkResult s r).1.seenNetworks =
        { bssid := r.bssid, lastSeen := r.timestamp, seenCount := 1 } :: s.seenNetworks.dropLast ∧
      (processNetworkResult s r).2 = true) := by
  constructor
  · intro s k rs hne hall hfind hroom
    obtain ⟨r0, rest, rfl⟩ := List.exists_cons_of_ne_nil hne
    have hk0 : r0.bssid = k := hall r0 (by simp)
    have hstep := scanStep_new_with_room s r0 (by rw [hk0]; exact hfind) hroom
    have hfresh : ∀ e ∈ s.seenNetworks, ¬ e.bssid = k :=
      (findSeenNetwork_none_iff _ _).mp hfind
    have hseen1 : (scanStep s r0).seenNetworks =
        { bssid := k, lastSeen := r0.timestamp, seenCount := 1 } ::
          (if s.seenNetworks.length < MAX_SEEN_NETWORKS then s.seenNetworks
           else s.seenNetworks.dropLast) := by
      rw [hstep]
      simp [addToSeenNetworks, hk0]
    have hrec := repeats_aux k rest (scanStep s r0) r0.timestamp 1
      (if s.seenNetworks.length < MAX_SEEN_NETWORKS then s.seenNetworks
       else s.seenNetworks.dropLast)
      (fun x hx => hall x (by simp [hx])) hseen1
    obtain ⟨t2, h1, h2⟩ := hrec
    refine ⟨t2,
      (if s.seenNetworks.length < MAX_SEEN_NETWORKS then s.seenNetworks
       else s.seenNetworks.dropLast), ?_, ?_, ?_⟩
    · show (processScanResults (scanStep s r0) rest).seenNetworks = _
      rw [h1]
      simp only [List.length_cons]
      congr 2
      omega
    · intro e he
      apply hfresh
      by_cases hcase : s.seenNetworks.length < MAX_SEEN_NETWORKS
      · simpa [hcase] using he
      · simp only [hcase, if_false] at he
        exact (List.dropLast_sublist s.seenNetworks).subset he
    · show (processScanResults (scanStep s r0) rest).newNetworksBuffer = _
      rw [h2, hstep]
      simp
  · intro s r hfind hlen
    constructor
    · simp [processNetworkResult, hfind, addToSeenNetworks, hlen]
    · simp [processNetworkResult, hfind]

/-- Empty subordinate state at boot. -/
def emptySubState : SubordinateState :=
  { seenNetworks := [], newNetworksBuffer := [], resultCount := 0, lastError := 0,
    totalNetworksScanned := 0, totalNewNetworks := 0 }

/-- Concrete scan observation of the key `[1,2,3,4,5,6]`. -/
def obsA : WiFiScanResult :=
  { bssid := [1, 2, 3, 4, 5, 6], ssid := [], rssi := -40, channel := 36, band := 2,
    authMode := 3, timestamp := 10, latitude := 0, longitude := 0, altitude := 0,
    gpsQuality := 0 }

/-- A later sighting of the same key. -/
def obsB : WiFiScanResult :=
  { obsA with rssi := -41, timestamp := 20 }

/-- A concrete full seen-networks cache: 500 entries with pairwise distinct
keys. -/
def bigSeenCache : List SeenNetwork :=
  (List.range MAX_SEEN_NETWORKS).map
    (fun i => { bssid := [i % 256, i / 256, 0, 0, 0, 0], lastSeen := 0, seenCount := 1 })

/-- Subordinate state whose seen cache is full. -/
def bigCacheState : SubordinateState :=
  { emptySubState with seenNetworks := bigSeenCache }

/-- An observation whose key is in none of the above states. -/
def freshObs : WiFiScanResult :=
  { obsA with bssid := [9, 9, 9, 9, 9, 9], timestamp := 1000 }

/-- Subordinate state whose new-networks buffer is at capacity. -/
def fullBufferState : SubordinateState :=
  { emptySubState with
    newNetworksBuffer := List.replicate MAX_NEW_NETWORKS obsA,
    resultCount := MAX_NEW_NETWORKS }

/-- Subordinate state whose seen cache already holds the key of `freshObs`. -/
def cachedKeyState : SubordinateState :=
  { emptySubState with
    seenNetworks := [{ bssid := [9, 9, 9, 9, 9, 9], lastSeen := 1000, seenCount := 1 }] }

set_option maxRecDepth 16000 in
/-- Witness for C4: two sightings of one fresh key from the empty state yield
count 2 and one buffered record; the fresh key into the concrete full cache
of 500 distinct keys evicts exactly the bottom entry. -/
theorem dedup_cache_sighting_count_and_eviction_witness :
    (∃ t2 tail,
      (processScanResults emptySubState [obsA, obsB]).seenNetworks =
        { bssid := [1, 2, 3, 4, 5, 6], lastSeen := t2, seenCount := 2 } :: tail ∧
      (∀ e ∈ tail, ¬ e.bssid = [1, 2, 3, 4, 5, 6]) ∧
      (processScanResults emptySubState [obsA, obsB]).newNetworksBuffer =
        emptySubState.newNetworksBuffer ++ [obsA]) ∧
    ((processNetworkResult bigCacheState freshObs).1.seenNetworks =
      { bssid := [9, 9, 9, 9, 9, 9], lastSeen := 1000, seenCount := 1 } :: bigSeenCache.dropLast ∧
     (processNetworkResult bigCacheState freshObs).2 = true) :=
  ⟨by
    have h := dedup_cache_sighting_count_and_eviction.1 emptySubState [1, 2, 3, 4, 5, 6]
      [obsA, obsB] (by decide) (by decide) (by decide) (by decide)
    simpa [obsA] using h,
   by
    have h := dedup_cache_sighting_count_and_eviction.2 bigCacheState freshObs
      (by decide) (by decide)
    simpa [freshObs, obsA, bigCacheState] using h⟩

/-! ### Poll scheduler (`src/controller/controller.ino`)

The controller-side polling state: the round-robin cursor
`currentPollIndex`, the address of the subordinate whose result stream is in
flight (`pendingResultsFrom`, 0 when none), and `waitingForResults`.
`setup()` fills `subordinates[i].address = i + 1`. -/

structure ControllerPollState where
  currentPollIndex : Nat
  pendingResultsFrom : Nat
  waitingForResults : Bool
deriving DecidableEq

def subordinateAddress (i : Nat) : Nat := i + 1

/-- Convenience constructor for the three polling fields. -/
def mkPollState (cursor pending : Nat) (waiting : Bool) : ControllerPollState :=
  { currentPollIndex := cursor, pendingResultsFrom := pending, waitingForResults := waiting }

/-- The `CTRL_SCANNING` branch of `loop()`: when not waiting,
`pollSubordinateForResults(currentPollIndex)` (which sends
`CMD_GET_SCAN_RESULTS` and records `pendingResultsFrom` only if the index is
in range and the subordinate is online), then advance the cursor modulo the
node count and set `waitingForResults`. The emitted value is the polled
address. -/
def pollTick (numSubordinates : Nat) (online : Nat → Bool) (s : ControllerPollState) :
    ControllerPollState × Option Nat :=
  if 0 < numSubordinates ∧ s.waitingForResults = false then
    let sent :=
      if s.currentPollIndex < numSubordinates ∧ online s.currentPollIndex = true then
        some (subordinateAddress s.currentPollIndex)
      else none
    ({ currentPollIndex := (s.currentPollIndex + 1) % numSubordinates,
       pendingResultsFrom := match sent with | some a => a | none => s.pendingResultsFrom,
       waitingForResults := true }, sent)
  else (s, none)

/-- The `RESP_ACK` case of `handlePacket`: guarded by the `uint8_t`
`subIndex = srcAddr - 1 < MAX_SUBORDINATES` check; an ACK from exactly the
pending subordinate emits `CMD_CLEAR_RESULTS` to it, clears the pending flag
and releases the scheduler. -/
def recvAck (s : ControllerPollState) (srcAddr : Nat) : ControllerPollState × Option Nat :=
  if (srcAddr + 255) % 256 < MAX_SUBORDINATES then
    if s.pendingResultsFrom = srcAddr then
      ({ s with pendingResultsFrom := 0, waitingForResults := false }, some srcAddr)
    else (s, none)
  else (s, none)

/-- One successful poll cycle: a scheduling tick followed by the terminating
ACK from the polled node (its `RESP_SCAN_RESULT` frames in between do not
touch the scheduler state). -/
def pollCycle (numSubordinates : Nat) (online : Nat → Bool) (s : ControllerPollState) :
    ControllerPollState × Option Nat :=
  let t := pollTick numSubordinates online s
  match t.2 with
  | some a => ((recvAck t.1 a).1, some a)
  | none => (t.1, none)

/-- `n` consecutive successful poll cycles, collecting the polled addresses. -/
def pollRun (numSubordinates : Nat) (online : Nat → Bool) :
    Nat → ControllerPollState → ControllerPollState × List Nat
  | 0, s => (s, [])
  | n + 1, s =>
    let c := pollCycle numSubordinates online s
    let rest := pollRun numSubordinates online n c.1
    (rest.1, c.2.toList ++ rest.2)

theorem pollCycle_step (M : Nat) (hM : 0 < M) (h52 : M ≤ MAX_SUBORDINATES)
    (c p : Nat) (hc : c < M) :
    pollCycle M (fun _ => true) (mkPollState c p false) =
      (mkPollState ((c + 1) % M) 0 false, some (c + 1)) := by
  have h52' : M ≤ 52 := by simpa [MAX_SUBORDINATES] using h52
  have htick : pollTick M (fun _ => true) (mkPollState c p false) =
      (mkPollState ((c + 1) % M) (c + 1) true, some (c + 1)) := by
    unfold pollTick mkPollState subordinateAddress
    rw [if_pos ⟨hM, rfl⟩]
    simp [hc]
  have hack : recvAck (mkPollState ((c + 1) % M) (c + 1) true) (c + 1) =
      (mkPollState ((c + 1) % M) 0 false, some (c + 1)) := by
    unfold recvAck mkPollState
    rw [if_pos (by simp only [MAX_SUBORDINATES]; omega)]
    simp
  unfold pollCycle
  rw [htick]
  simp [hack]

theorem pollRun_emits (M : Nat) (hM : 0 < M) (h52 : M ≤ MAX_SUBORDINATES) :
    ∀ (n c p : Nat), c < M →
      (pollRun M (fun _ => true) n (mkPollState c p false)).2 =
        (List.range n).map (fun i => (c + i) % M + 1) := by
  intro n
  induction n with
  | zero => intro c p hc; simp [pollRun]
  | succ k ih =>
    intro c p hc
    simp only [pollRun]
    rw [pollCycle_step M hM h52 c p hc]
    simp only [Option.toList_some]
    rw [ih ((c + 1) % M) 0 (Nat.mod_lt _ hM)]
    rw [List.range_succ_eq_map]
    simp only [List.map_cons, List.map_map, List.singleton_append]
    rw [show (c + 0) % M + 1 = c + 1 from by simp [Nat.mod_eq_of_lt hc]]
    congr 1
    apply List.map_congr_left
    intro i _
    simp only [Function.comp_apply]
    rw [Nat.mod_add_mod]
    congr 2
    omega

/-! ### Claim C3 — single outstanding poll, round-robin fairness -/

/-- Claim C3. While a result stream is in flight (`waitingForResults`), a
scheduling tick issues nothing and changes nothing, so at most one
`GET_SCAN_RESULTS` request is ever outstanding and no second poll precedes
the pending node's terminating ACK. With M known (online) nodes, M
consecutive successful poll cycles starting at cursor c poll the addresses
`(c+i) % M + 1` in cursor order, a duplicate-free list containing exactly the
addresses 1..M — each node exactly once. -/
theorem poll_scheduler_single_outstanding_and_fair :
    (∀ (M : Nat) (online : Nat → Bool) (s : ControllerPollState),
      s.waitingForResults = true → pollTick M online s = (s, none)) ∧
    (∀ (M c : Nat), 0 < M → M ≤ MAX_SUBORDINATES → c < M →
      (pollRun M (fun _ => true) M (mkPollState c 0 false)).2 =
        (List.range M).map (fun i => (c + i) % M + 1) ∧
      ((pollRun M (fun _ => true) M (mkPollState c 0 false)).2).Nodup ∧
      (∀ a : Nat, a ∈ (pollRun M (fun _ => true) M (mkPollState c 0 false)).2 ↔
        1 ≤ a ∧ a ≤ M)) := by
  constructor
  · intro M online s hw
    unfold pollTick
    rw [if_neg (by simp [hw])]
  · intro M c hM h52 hc
    have hrun := pollRun_emits M hM h52 M c 0 hc
    have hinj : ∀ x ∈ List.range M, ∀ y ∈ List.range M,
        (c + x) % M + 1 = (c + y) % M + 1 → x = y := by
      intro x hx y hy hxy
      simp only [List.mem_range] at hx hy
      have hmod : (c + x) % M = (c + y) % M := by omega
      have hxm : x % M = y % M := Nat.ModEq.add_left_cancel' c hmod
      rwa [Nat.mod_eq_of_lt hx, Nat.mod_eq_of_lt hy] at hxm
    have hnodup : ((List.range M).map (fun i => (c + i) % M + 1)).Nodup :=
      List.Nodup.map_on hinj (List.nodup_range M)
    refine ⟨hrun, by rw [hrun]; exact hnodup, ?_⟩
    intro a
    rw [hrun]
    constructor
    · intro ha
      obtain ⟨i, _, rfl⟩ := List.mem_map.mp ha
      have := Nat.mod_lt (c + i) hM
      omega
    · rintro ⟨h1, h2⟩
      apply List.mem_map.mpr
      refine ⟨(M - c % M + (a - 1)) % M, List.mem_range.mpr (Nat.mod_lt _ hM), ?_⟩
      have hcm : c % M ≤ M := Nat.le_of_lt (Nat.mod_lt _ hM)
      have key : (c + (M - c % M + (a - 1)) % M) % M = a - 1 := by
        rw [← Nat.mod_add_mod, Nat.add_mod_mod, ← Nat.add_assoc,
          show c % M + (M - c % M) = M from by omega, Nat.add_mod_left]
        exact Nat.mod_eq_of_lt (by omega)
      rw [key]
      omega

/-- Witness for C3 at M = 3 nodes: a waiting scheduler issues nothing, and
three successful cycles from cursor 0 poll addresses 1, 2, 3. -/
theorem poll_scheduler_single_outstanding_and_fair_witness :
    pollTick 3 (fun _ => true) (mkPollState 1 1 true) = (mkPollState 1 1 true, none) ∧
    (pollRun 3 (fun _ => true) 3 (mkPollState 0 0 false)).2 = [1, 2, 3] :=
  ⟨poll_scheduler_single_outstanding_and_fair.1 3 (fun _ => true) (mkPollState 1 1 true) rfl,
   (poll_scheduler_single_outstanding_and_fair.2 3 0 (by decide) (by decide) (by decide)).1⟩

/-! ### Claim C7 — new-buffer overflow -/

/-- Claim C7. When a genuinely new key (not in the seen cache) is observed
while the new-networks buffer is at capacity, the observation is not
enqueued (buffer and reported result count unchanged), the sticky
`PROTO_ERR_BUFFER_FULL` flag is set in the status, and the scan loop
continues uninterrupted: every observation of a scan is processed
(`totalNetworksScanned` grows by the full list length regardless of drops). -/
theorem new_buffer_overflow_drops_and_continues :
    (∀ (s : SubordinateState) (r : WiFiScanResult),
      findSeenNetwork s.seenNetworks r.bssid = none →
      ¬ s.newNetworksBuffer.length < MAX_NEW_NETWORKS →
      (scanStep s r).newNetworksBuffer = s.newNetworksBuffer ∧
      (scanStep s r).resultCount = s.resultCount ∧
      (scanStep s r).lastError = PROTO_ERR_BUFFER_FULL) ∧
    (∀ (s : SubordinateState) (rs : List WiFiScanResult),
      (processScanResults s rs).totalNetworksScanned = s.totalNetworksScanned + rs.length) := by
  constructor
  · intro s r hfind hfull
    refine ⟨?_, ?_, ?_⟩ <;> simp [scanStep, processNetworkResult, hfind, hfull]
  · intro s rs
    induction rs generalizing s with
    | nil => simp [processScanResults]
    | cons r rs ih =>
      show (processScanResults (scanStep s r) rs).totalNetworksScanned = _
      rw [ih (scanStep s r), scanStep_totalScanned]
      simp [Nat.add_assoc, Nat.add_comm 1 rs.length]

/-- Witness for C7: the fresh key at a full buffer of 100 records is dropped
with the error flag set. -/
theorem new_buffer_overflow_drops_and_continues_witness :
    (scanStep fullBufferState freshObs).newNetworksBuffer = fullBufferState.newNetworksBuffer ∧
    (scanStep fullBufferState freshObs).resultCount = fullBufferState.resultCount ∧
    (scanStep fullBufferState freshObs).lastError = PROTO_ERR_BUFFER_FULL :=
  new_buffer_overflow_drops_and_continues.1 fullBufferState freshObs (by decide) (by decide)

/-! ### Claim C8 — CLEAR_RESULTS versus GET_SCAN_RESULTS -/

/-- Claim C8. Handling `CMD_CLEAR_RESULTS` empties the new-networks buffer
and zeroes the reported result count while the seen-networks cache — every
entry, its sighting count and the recency order — is exactly as before; and
`CMD_GET_SCAN_RESULTS` (which streams the buffer and a terminating ACK)
leaves the whole state, in particular the new buffer, untouched: the buffer
is cleared only by the explicit clear command. -/
theorem clear_results_resets_buffer_preserves_seen :
    ∀ s : SubordinateState,
      (cmdClearResults s).1.newNetworksBuffer = [] ∧
      (cmdClearResults s).1.resultCount = 0 ∧
      (cmdClearResults s).1.seenNetworks = s.seenNetworks ∧
      (sendBufferedResults s).1 = s ∧
      (sendBufferedResults s).2 =
        s.newNetworksBuffer.map SubOutput.scanResult ++ [SubOutput.ack] := by
  intro s
  exact ⟨rfl, rfl, rfl, rfl, rfl⟩

/-- Witness for C8 at the concrete full-buffer state: clearing empties the
buffer and keeps the 0-entry seen cache; streaming results leaves the state
alone. -/
theorem clear_results_resets_buffer_preserves_seen_witness :
    (cmdClearResults fullBufferState).1.newNetworksBuffer = [] ∧
    (cmdClearResults fullBufferState).1.resultCount = 0 ∧
    (cmdClearResults fullBufferState).1.seenNetworks = fullBufferState.seenNetworks ∧
    (sendBufferedResults fullBufferState).1 = fullBufferState ∧
    (sendBufferedResults fullBufferState).2 =
      fullBufferState.newNetworksBuffer.map SubOutput.scanResult ++ [SubOutput.ack] :=
  clear_results_resets_buffer_preserves_seen fullBufferState

/-! ### Claim C10 — a dropped observation is permanent -/

/-- Claim C10. `processNetworkResult` records a fresh key in the seen cache
before `performScan` checks the buffer capacity, so an observation dropped on
a full buffer is nevertheless cached (afterwards its key is found at the
top); every sighting of a key already in the cache is classified as a repeat
and enqueues nothing; and `CMD_CLEAR_RESULTS` leaves the seen cache intact —
so the dropped network is never transmitted later, even after the buffer is
cleared. -/
theorem dropped_new_network_never_retried :
    (∀ (s : SubordinateState) (r : WiFiScanResult),
      findSeenNetwork s.seenNetworks r.bssid = none →
      ¬ s.newNetworksBuffer.length < MAX_NEW_NETWORKS →
      findSeenNetwork (scanStep s r).seenNetworks r.bssid = some 0) ∧
    (∀ (s : SubordinateState) (r2 : WiFiScanResult),
      findSeenNetwork s.seenNetworks r2.bssid ≠ none →
      (scanStep s r2).newNetworksBuffer = s.newNetworksBuffer ∧
      (scanStep s r2).resultCount = s.resultCount) ∧
    (∀ s : SubordinateState, (cmdClearResults s).1.seenNetworks = s.seenNetworks) := by
  refine ⟨?_, ?_, fun s => rfl⟩
  · intro s r hfind hfull
    have : (scanStep s r).seenNetworks =
        addToSeenNetworks s.seenNetworks r.bssid r.timestamp := by
      simp [scanStep, processNetworkResult, hfind, hfull]
    rw [this]
    simp [findSeenNetwork, addToSeenNetworks, List.findIdx?_cons]
  · intro s r2 hfound
    obtain ⟨i, hi⟩ := Option.ne_none_iff_exists'.mp hfound
    constructor <;> simp [scanStep, processNetworkResult, hi]

/-- Witness for C10: after the drop at a full buffer the key sits at the top
of the seen cache; re-sighting it after a clear enqueues nothing. -/
theorem dropped_new_network_never_retried_witness :
    findSeenNetwork (scanStep fullBufferState freshObs).seenNetworks freshObs.bssid = some 0 ∧
    ((scanStep cachedKeyState freshObs).newNetworksBuffer = cachedKeyState.newNetworksBuffer ∧
     (scanStep cachedKeyState freshObs).resultCount = cachedKeyState.resultCount) :=
  ⟨dropped_new_network_never_retried.1 fullBufferState freshObs (by decide) (by decide),
   dropped_new_network_never_retried.2.1 cachedKeyState freshObs (by decide)⟩

/-! ### Auto-discovery (`handleAddressAssignment` in `subordinate.ino`,
`tryAssignDownstream` in `serial_protocol.h`)

A node receiving `CMD_ASSIGN_ADDRESS` adopts the carried address `a`, calls
`tryAssignDownstream (a+1)` — which sends the assignment on and then loops on
`processSerialInput` over the downstream link until it either obtains a
frame that is delivered to this device with type `RESP_ADDRESS_ASSIGNED`
(then `true`) or the 1000 ms timeout expires (then `false`) — flags itself
last node on `false`, and reports `RESP_ADDRESS_ASSIGNED(addr, isLast)` to
the controller. Confirmations travelling up from deeper nodes are addressed
to `CONTROLLER_ADDRESS` and are therefore only forwarded, never delivered,
by intermediate nodes. -/

structure AssignReport where
  assignedAddress : Nat
  isLastNode : Bool
deriving DecidableEq

/-- The upstream confirmation a node sends from `handleAddressAssignment`:
`RESP_ADDRESS_ASSIGNED` to the controller carrying the packed
`AddressAssignment{assignedAddress, isLastNode}`. -/
def assignConfirmation (r : AssignReport) : Packet :=
  mkPacket r.assignedAddress CONTROLLER_ADDRESS RESP_ADDRESS_ASSIGNED
    [r.assignedAddress, if r.isLastNode then 1 else 0] 0

/-- Return value of `tryAssignDownstream` at a node with address `myAddress`,
given the validated frames arriving on its downstream link during the wait:
`true` iff one of them is delivered to this device and has type
`RESP_ADDRESS_ASSIGNED` (frames not delivered are forwarded by
`processSerialInput` and make the loop return `false`). -/
def tryAssignDownstreamResult (myAddress : Nat) (incoming : List Packet) : Bool :=
  incoming.any (fun p => deliversLocally myAddress p && p.header.type == RESP_ADDRESS_ASSIGNED)

/-- Discovery over a chain of `n` still-unassigned nodes, the first of which
receives assignment `a`: it adopts `a`, the rest of the chain is assigned
`a+1, ...` recursively, and each node reports with the last-node flag from
its own `tryAssignDownstream`. The model is generous to the code: it lets
every deeper confirmation arrive on the waiting node's downstream link
within the timeout window (on real timing none does, which could only make
`tryAssignDownstream` fail more often). -/
def runDiscovery : Nat → Nat → List AssignReport
  | _, 0 => []
  | a, n + 1 =>
    let deeper := runDiscovery (a + 1) n
    let hasDownstream := tryAssignDownstreamResult a (deeper.map assignConfirmation)
    { assignedAddress := a, isLastNode := !hasDownstream } :: deeper

theorem tryAssign_confirm_false (a : Nat) (ha : 1 ≤ a) (l : List AssignReport) :
    tryAssignDownstreamResult a (l.map assignConfirmation) = false := by
  simp only [tryAssignDownstreamResult, List.any_eq_false]
  intro p hp
  obtain ⟨r, _, rfl⟩ := List.mem_map.mp hp
  have hdest : (assignConfirmation r).header.destAddr = CONTROLLER_ADDRESS := rfl
  have hloc : deliversLocally a (assignConfirmation r) = false := by
    rw [← Bool.not_eq_true]
    simp only [deliversLocally, hdest, CONTROLLER_ADDRESS, BROADCAST_ADDRESS,
      UNASSIGNED_ADDRESS, Bool.or_eq_true, Bool.and_eq_true, beq_iff_eq]
    omega
  simp [hloc]

theorem runDiscovery_spec : ∀ (n a : Nat), 1 ≤ a →
    (runDiscovery a n).length = n ∧
    (runDiscovery a n).map (fun r => r.assignedAddress) = List.range' a n ∧
    (runDiscovery a n).countP (fun r => r.isLastNode) = n := by
  intro n
  induction n with
  | zero => intro a _; simp [runDiscovery]
  | succ k ih =>
    intro a ha
    obtain ⟨h1, h2, h3⟩ := ih (a + 1) (by omega)
    have hfalse := tryAssign_confirm_false a ha (runDiscovery (a + 1) k)
    simp only [runDiscovery, hfalse]
    refine ⟨by simp [h1], ?_, ?_⟩
    · simp only [List.map_cons, h2, List.range'_succ]
    · simp [h3]

/-! ### Claim C1 — auto-discovery on a chain of N nodes -/

/-- Claim C1 (divergence). Discovery over a chain of `n` unassigned nodes
does produce exactly `n` `ADDRESS_ASSIGNED` reports whose addresses are the
contiguous range `1..n` in physical chain order — but every one of the `n`
nodes reports the last-node flag set, not exactly one: a node's
`tryAssignDownstream` can only return `true` on a `RESP_ADDRESS_ASSIGNED`
frame delivered to that node itself, while the downstream neighbour's
confirmation is addressed to the controller and is forwarded instead, so
every node times out and flags itself last. The final conjunct evaluates the
failing input, a 2-node chain. -/
theorem discovery_assigns_contiguous_but_every_node_flags_last (n : Nat) :
    (runDiscovery 1 n).length = n ∧
    (runDiscovery 1 n).map (fun r => r.assignedAddress) = List.range' 1 n ∧
    (runDiscovery 1 n).countP (fun r => r.isLastNode) = n ∧
    runDiscovery 1 2 = [{ assignedAddress := 1, isLastNode := true },
      { assignedAddress := 2, isLastNode := true }] := by
  obtain ⟨h1, h2, h3⟩ := runDiscovery_spec n 1 (by omega)
  exact ⟨h1, h2, h3, by decide⟩

/-- Witness for C1 at a 3-node chain: three reports, addresses 1..3, and all
three last-node flags set. -/
theorem discovery_assigns_contiguous_but_every_node_flags_last_witness :
    (runDiscovery 1 3).length = 3 ∧
    (runDiscovery 1 3).map (fun r => r.assignedAddress) = List.range' 1 3 ∧
    (runDiscovery 1 3).countP (fun r => r.isLastNode) = 3 ∧
    runDiscovery 1 2 = [{ assignedAddress := 1, isLastNode := true },
      { assignedAddress := 2, isLastNode := true }] :=
  discovery_assigns_contiguous_but_every_node_flags_last 3

end WiFivedra
